import Mathlib

/-!
A shallow embedding of the tgcloud transfer engine
(src/tgcloud-core: service.rs, telegram_client.rs, bot_manager.rs,
storage.rs, models.rs, errors.rs), together with theorems settling the
specification claims about it.

Effectful Rust code is modelled as pure functions from explicit oracles
(the outcomes of external calls: worker results, store results, the
order in which concurrent workers complete) to an observable outcome:
the returned value together with a trace of the side effects the engine
performed (events sent, blob-tier delete calls issued, metadata
persisted, files removed).
-/

deriving instance DecidableEq for Except

namespace TgCloud

/-- Fixed chunk size from service.rs: 256 MiB (268_435_456 bytes). -/
def CHUNK_SIZE : Nat := 268435456

/-- Maximum number of retry attempts for transient errors
(telegram_client.rs, MAX_RETRIES). -/
def MAX_RETRIES : Nat := 5

/-- The error enum from errors.rs (TgCloudError).  Error payloads that are
foreign structured types in Rust (mongodb, reqwest, io errors) are carried
as their display strings. -/
inductive TgCloudError where
  | mongoError (msg : String)
  | telegramError (msg : String)
  | ioError (msg : String)
  | botManagerError (msg : String)
  | fileNotFound (name : String)
  | configError (msg : String)
  | uploadFailed (msg : String)
  | downloadFailed (msg : String)
  | deleteFailed (msg : String)
  | integrityFailed (msg : String)
  | rateLimited (msg : String)
  | retryExhausted (attempts : Nat) (lastError : String)
  | unknown (msg : String)
  deriving Repr, DecidableEq

/-- The thiserror-derived Display implementation for TgCloudError
(the #[error("...")] format strings in errors.rs). -/
def errToString : TgCloudError → String
  | .mongoError msg => "MongoDB error: " ++ msg
  | .telegramError msg => "Telegram API error: " ++ msg
  | .ioError msg => "IO error: " ++ msg
  | .botManagerError msg => "Bot manager error: " ++ msg
  | .fileNotFound name => "File not found: " ++ name
  | .configError msg => "Configuration error: " ++ msg
  | .uploadFailed msg => "Upload failed: " ++ msg
  | .downloadFailed msg => "Download failed: " ++ msg
  | .deleteFailed msg => "Delete failed: " ++ msg
  | .integrityFailed msg => "Integrity error: " ++ msg
  | .rateLimited msg => "Rate limited: " ++ msg
  | .retryExhausted attempts lastError =>
      "Retry exhausted after " ++ toString attempts ++ " attempts: " ++ lastError
  | .unknown msg => "Unknown error: " ++ msg

/-- Whether the first list is a prefix of the second. -/
def isPrefOf : List Char → List Char → Bool
  | [], _ => true
  | _ :: _, [] => false
  | p :: ps, s :: ss => p == s && isPrefOf ps ss

/-- Whether pat occurs as a contiguous sublist. -/
def hasSubList (pat : List Char) : List Char → Bool
  | [] => pat.isEmpty
  | c :: cs => isPrefOf pat (c :: cs) || hasSubList pat cs

/-- Substring test embedding Rust's str::contains in is_retryable. -/
def hasSubstr (s pat : String) : Bool :=
  hasSubList pat.toList s.toList

/-- telegram_client.rs, is_retryable: whether an error is retryable
(429 / rate-limit / 5xx message markers, RateLimited, or a reqwest
network error). -/
def is_retryable : TgCloudError → Bool
  | .uploadFailed msg
  | .downloadFailed msg
  | .deleteFailed msg =>
      hasSubstr msg "429" || hasSubstr msg "Rate limited" ||
      hasSubstr msg "Server error" || hasSubstr msg "500" ||
      hasSubstr msg "502" || hasSubstr msg "503" || hasSubstr msg "504"
  | .rateLimited _ => true
  | .telegramError _ => true
  | _ => false

/-- telegram_client.rs, TelegramClient::with_retry, instrumented with the
number of attempts actually made.  The oracle f gives the outcome of the
k-th attempt (0-based).  The fuel argument counts the attempts remaining
out of MAX_RETRIES; attempt counts those already made; lastError carries
the display string of the last retryable error. -/
def withRetryGo (f : Nat → Except TgCloudError α) :
    Nat → Nat → String → Except TgCloudError α × Nat
  | 0, attempt, lastError =>
      (.error (.retryExhausted MAX_RETRIES lastError), attempt)
  | fuel + 1, attempt, _lastError =>
      match f attempt with
      | .ok v => (.ok v, attempt + 1)
      | .error e =>
          if is_retryable e then
            withRetryGo f fuel (attempt + 1) (errToString e)
          else
            (.error e, attempt + 1)

/-- with_retry together with the count of attempts made. -/
def withRetryTrace (f : Nat → Except TgCloudError α) :
    Except TgCloudError α × Nat :=
  withRetryGo f MAX_RETRIES 0 ""

/-- The result component of with_retry. -/
def with_retry (f : Nat → Except TgCloudError α) : Except TgCloudError α :=
  (withRetryTrace f).1

/-- models.rs, Bot (roster entry; the Option ObjectId database key is
omitted as it plays no role in the engine). -/
structure Bot where
  bot_id : String
  token : String
  upload_count : Nat
  active : Bool
  deriving Repr, DecidableEq

/-- models.rs / service.rs, FileChunk: one chunk of a file stored as a
blob-tier document. -/
structure FileChunk where
  index : Nat
  bot_id : String
  telegram_file_id : String
  message_id : Int
  size : Nat
  deriving Repr, DecidableEq

/-- models.rs / service.rs, FileMetadata (the Option ObjectId key is
omitted; created_at is a Nat timestamp). -/
structure FileMetadata where
  file_id : String
  original_name : String
  size : Nat
  chunk_size : Nat
  total_chunks : Nat
  sha256 : String
  chunks : List FileChunk
  created_at : Nat
  deriving Repr, DecidableEq

/-- models.rs, UploadStatus as constructed by service.rs (the
Started variant carries the shared progress-counter handle in Rust,
which has no observable value at emission time and is omitted here). -/
inductive UploadStatus where
  | started (totalSize : Nat) (totalChunks : Nat)
  | hashing
  | hashComplete (sha256 : String)
  | completed (fileId : String)
  | failed (error : String)
  deriving Repr, DecidableEq

/-- models.rs, DownloadStatus as constructed by service.rs. -/
inductive DownloadStatus where
  | started (totalSize : Nat) (totalChunks : Nat)
  | merging
  | verifying
  | completed (path : String)
  | failed (error : String)
  deriving Repr, DecidableEq

/-- Lexicographic order on char sequences by code point: the standard
byte-wise string order. -/
def strLeList : List Char → List Char → Bool
  | [], _ => true
  | _ :: _, [] => false
  | a :: as, b :: bs =>
      if a.toNat < b.toNat then true
      else if b.toNat < a.toNat then false
      else strLeList as bs

/-- Lexicographic order on strings by code point. -/
def strLe (s t : String) : Bool :=
  strLeList s.toList t.toList

/-- Modelled from the spec: MongoStore::get_active_bots is referenced by
bot_manager.rs but absent from src/ (storage.rs in this snapshot lacks
it).  Per the spec the store returns the full active set, "sorted
deterministically by bot_id": the roster filtered to active bots and
sorted lexicographically by bot_id. -/
def get_active_bots (roster : List Bot) : List Bot :=
  List.insertionSort (fun a b => strLe a.bot_id b.bot_id = true)
    (roster.filter (·.active))

/-- bot_manager.rs, BotManager::refresh_cache: fetches the active bots
(the token-cache update has no observable effect in this model). -/
def refresh_cache (roster : List Bot) : List Bot :=
  get_active_bots roster

/-- bot_manager.rs, BotManager::get_upload_bot: refresh, error if empty,
else the bot with the lowest upload_count (stable sort, first element). -/
def get_upload_bot (roster : List Bot) : Except TgCloudError Bot :=
  let bots := refresh_cache roster
  match List.insertionSort (fun a b => a.upload_count ≤ b.upload_count) bots with
  | [] => .error (.botManagerError "No active bots found")
  | b :: _ => .ok b

/-- bot_manager.rs, BotManager::get_all_active_bots: refresh, error if
empty, else the whole active list. -/
def get_all_active_bots (roster : List Bot) : Except TgCloudError (List Bot) :=
  let bots := refresh_cache roster
  if bots.isEmpty then .error (.botManagerError "No active bots found")
  else .ok bots

/-- storage.rs, MongoStore::increment_bot_usage: an explicit no-op
("No-op in single-bot mode"); the persisted roster is returned
unchanged. -/
def increment_bot_usage (roster : List Bot) (_bot_id : String) : List Bot :=
  roster

/-- service.rs line 80-84: total_chunks; the div_ceil result is cast
with "as u32", so it is reduced modulo 2^32. -/
def totalChunksOf (totalSize : Nat) : Nat :=
  if totalSize = 0 then 1
  else ((totalSize + CHUNK_SIZE - 1) / CHUNK_SIZE) % 2 ^ 32

/-- service.rs line 156: byte offset of chunk i. -/
def chunkOffset (i : Nat) : Nat := i * CHUNK_SIZE

/-- service.rs line 157: size of chunk i
(min(CHUNK_SIZE, total_size.saturating_sub(offset))). -/
def chunkSizeAt (totalSize i : Nat) : Nat :=
  min CHUNK_SIZE (totalSize - chunkOffset i)

/-- An observable side effect of upload_file, in the order the engine
performs it: an event sent to the sink, a blob-tier deleteMessage call,
the metadata insert, or a bot-usage increment. -/
inductive UploadEff where
  | ev (s : UploadStatus)
  | del (token chatId : String) (messageId : Int)
  | save (m : FileMetadata)
  | incUsage (botId : String)
  deriving Repr, DecidableEq

/-- The oracle inputs of one upload_file call: everything the
surrounding system decides.  workerResult i is the outcome of chunk i's
upload_part_with_retry call (blob_id and msg_id on success);
completionOrder is the order in which the spawned workers complete
(an arbitrary permutation of the chunk indices); saveResult is the
metadata-store insert outcome; fileId is the generated UUID, createdAt
the commit timestamp. -/
structure UploadArgs where
  path : String
  totalSize : Nat
  sha256 : String
  chatId : String
  roster : List Bot
  workerResult : Nat → Except TgCloudError (String × Int)
  completionOrder : List Nat
  saveResult : Except TgCloudError Unit
  fileId : String
  createdAt : Nat

/-- The observable outcome of one upload_file call.  persisted is the
FileMetadata document durably stored by the call (the insert is
single-document atomic, so a failed insert persists nothing);
finalRoster is the persisted bot roster after the call. -/
structure UploadOutcome where
  result : Except TgCloudError Unit
  trace : List UploadEff
  persisted : Option FileMetadata
  finalRoster : List Bot

/-- service.rs lines 130-136: bot selection — all active bots in the
multi-bot path (N > CHUNK_SIZE), else the single least-used bot. -/
def selectBots (roster : List Bot) (isMultiBot : Bool) :
    Except TgCloudError (List Bot) :=
  if isMultiBot then get_all_active_bots roster
  else (get_upload_bot roster).map (fun b => [b])

/-- First-occurrence deduplication (the set of keys of the usage_counts
HashMap that service.rs builds over the collected chunks). -/
def dedupFirstAux (seen : List String) : List String → List String
  | [] => []
  | x :: xs =>
      if x ∈ seen then dedupFirstAux seen xs
      else x :: dedupFirstAux (x :: seen) xs

/-- First-occurrence deduplication from an empty seen set. -/
def dedupFirst (l : List String) : List String := dedupFirstAux [] l

/-- service.rs line 160: the bot assigned to chunk i
(bot_ids[i % bot_ids.len()]). -/
def assignedBot (botIds : List String) (i : Nat) : String :=
  botIds.getD (i % botIds.length) ""

/-- The chunk record chunk worker i returns on success
(service.rs lines 202-221). -/
def workerChunk (a : UploadArgs) (botIds : List String) (i : Nat)
    (tg : String) (msg : Int) : FileChunk :=
  { index := i, bot_id := assignedBot botIds i, telegram_file_id := tg,
    message_id := msg, size := chunkSizeAt a.totalSize i }

/-- The successful chunks collected by the drain loop, in completion
order (service.rs lines 228-247). -/
def uploadChunksOf (a : UploadArgs) (botIds : List String) :
    List FileChunk :=
  a.completionOrder.filterMap fun i =>
    match a.workerResult i with
    | .ok (tg, msg) => some (workerChunk a botIds i tg msg)
    | .error _ => none

/-- The first worker error in completion order (service.rs lines
228-247: first_error). -/
def firstChunkError (a : UploadArgs) : Option TgCloudError :=
  a.completionOrder.findSome? fun i =>
    match a.workerResult i with
    | .error e => some e
    | .ok _ => none

/-- The error upload_file returns when it fails after fan-out: the
first worker error in completion order, else the metadata-insert
error. -/
def firstUploadError (a : UploadArgs) : Option TgCloudError :=
  match firstChunkError a with
  | some e => some e
  | none =>
      match a.saveResult with
      | .error e => some e
      | .ok _ => none

/-- service.rs lines 139-143: the bot_id → token map handed to the
spawned workers. -/
def tokenMapOf (bots : List Bot) : List (String × String) :=
  bots.map fun b => (b.bot_id, b.token)

/-- The three events upload_file emits before fan-out: Started, Hashing,
HashComplete. -/
def uploadEv0 (a : UploadArgs) : List UploadEff :=
  [.ev (.started a.totalSize (totalChunksOf a.totalSize)), .ev .hashing,
   .ev (.hashComplete a.sha256)]

/-- The rollback pass (service.rs lines 250-258 and 307-315): a
best-effort deleteMessage for each given chunk, using the token looked
up by the chunk's own bot_id. -/
def uploadRollback (a : UploadArgs) (bots : List Bot)
    (cs : List FileChunk) : List UploadEff :=
  cs.filterMap fun c =>
    (List.lookup c.bot_id (tokenMapOf bots)).map
      (fun t => UploadEff.del t a.chatId c.message_id)

/-- The FileMetadata document upload_file constructs (service.rs lines
269-285): the collected chunks sorted by index. -/
def uploadMeta (a : UploadArgs) (bots : List Bot) : FileMetadata :=
  { file_id := a.fileId, original_name := a.path, size := a.totalSize,
    chunk_size := CHUNK_SIZE, total_chunks := totalChunksOf a.totalSize,
    sha256 := a.sha256,
    chunks := List.insertionSort (fun c d => c.index ≤ d.index)
      (uploadChunksOf a (bots.map (·.bot_id))),
    created_at := a.createdAt }

/-- The distinct participating bots for which upload_file calls
increment_usage (service.rs lines 290-297: the usage_counts keys). -/
def usageBotsOf (a : UploadArgs) (bots : List Bot) : List String :=
  dedupFirst ((uploadMeta a bots).chunks.map (·.bot_id))

/-- service.rs, TgCloudService::upload_file, lines 77-326: plan chunks,
emit Started/Hashing/HashComplete, select bots, fan out one worker per
chunk, drain all workers collecting successes and the first error in
completion order, roll back (best-effort deleteMessage per successful
chunk) on any worker error or on metadata-insert failure, otherwise
persist metadata, increment usage per distinct participating bot and
emit Completed. -/
def upload_file (a : UploadArgs) : UploadOutcome :=
  match selectBots a.roster (decide (a.totalSize > CHUNK_SIZE)) with
  | .error e =>
      { result := .error e, trace := uploadEv0 a, persisted := none,
        finalRoster := a.roster }
  | .ok bots =>
      match firstChunkError a with
      | some err =>
          { result := .error err,
            trace := uploadEv0 a ++
              uploadRollback a bots (uploadChunksOf a (bots.map (·.bot_id)))
              ++ [.ev (.failed (errToString err))],
            persisted := none, finalRoster := a.roster }
      | none =>
          match a.saveResult with
          | .ok _ =>
              { result := .ok (),
                trace := uploadEv0 a ++ [.save (uploadMeta a bots)] ++
                  (usageBotsOf a bots).map UploadEff.incUsage ++
                  [.ev (.completed a.fileId)],
                persisted := some (uploadMeta a bots),
                finalRoster :=
                  (usageBotsOf a bots).foldl increment_bot_usage a.roster }
          | .error e =>
              { result := .error e,
                trace := uploadEv0 a ++ [.save (uploadMeta a bots)] ++
                  uploadRollback a bots (uploadMeta a bots).chunks ++
                  [.ev (.failed (errToString e))],
                persisted := none, finalRoster := a.roster }

/-- Oracle for one attempt of an upload-part retry closure: how many
bytes the attempt streamed through the ProgressWrapper (each
successfully read byte count is fetch_added to the shared counter), and
the attempt's outcome. -/
structure PartAttempt where
  bytesRead : Nat
  outcome : Except TgCloudError (String × Int)

/-- telegram_client.rs, upload_part_with_retry body: with_retry over a
closure that re-opens the file, re-seeks and re-streams through a fresh
ProgressWrapper around the same shared counter.  Instrumented with the
counter value and the number of attempts made.  Every attempt adds its
streamed byte count to the counter, whether or not the attempt
succeeds; the counter is never reset or decremented. -/
def uploadPartGo (att : Nat → PartAttempt) :
    Nat → Nat → Nat → String →
    Except TgCloudError (String × Int) × Nat × Nat
  | 0, attempt, counter, lastError =>
      (.error (.retryExhausted MAX_RETRIES lastError), counter, attempt)
  | fuel + 1, attempt, counter, _lastError =>
      let s := att attempt
      let counter2 := counter + s.bytesRead
      match s.outcome with
      | .ok v => (.ok v, counter2, attempt + 1)
      | .error e =>
          if is_retryable e then
            uploadPartGo att fuel (attempt + 1) counter2 (errToString e)
          else
            (.error e, counter2, attempt + 1)

/-- upload_part_with_retry from a given initial counter value: returns
(result, final counter value, attempts made). -/
def upload_part_with_retry (att : Nat → PartAttempt) (init : Nat) :
    Except TgCloudError (String × Int) × Nat × Nat :=
  uploadPartGo att MAX_RETRIES 0 init ""

/-- Oracle inputs of one download chunk worker: the outcome of the
single get_download_url (getFile) call, the outcome of the k-th GET
attempt on a given URL, and the outcome of streaming the body of a
successful GET to the temp file. -/
structure DlWorkerArgs where
  resolveResult : Except TgCloudError String
  getResult : String → Nat → Except TgCloudError Unit
  streamResult : Except TgCloudError (List Nat)

/-- Observable trace of one download chunk worker: its result, how many
times the resolver (getFile) was invoked, and the URL used by each GET
attempt in order. -/
structure DlWorkerTrace where
  result : Except TgCloudError (List Nat)
  resolveCalls : Nat
  getUrls : List String
  deriving Repr

/-- service.rs lines 418-434: the worker body after gate acquisition.
get_download_url is called once; its URL is captured by the
download_file_with_retry closure, so every retry attempt issues GET on
that same URL; the body streaming to the temp file happens after the
retry wrapper returns and is not retried. -/
def download_chunk_worker (a : DlWorkerArgs) : DlWorkerTrace :=
  match a.resolveResult with
  | .error e => { result := .error e, resolveCalls := 1, getUrls := [] }
  | .ok url =>
      let p := withRetryTrace (fun k => a.getResult url k)
      { result :=
          match p.1 with
          | .error e => .error e
          | .ok _ =>
              match a.streamResult with
              | .error e => .error e
              | .ok content => .ok content,
        resolveCalls := 1,
        getUrls := List.replicate p.2 url }

/-- The temp-file path for chunk i (service.rs line 400). -/
def tempPath (outPath : String) (i : Nat) : String :=
  outPath ++ ".chunk_" ++ toString i ++ ".tmp"

/-- The outcome of one download chunk worker as seen by the collector:
the streamed temp-file content on success, or an error together with
whether the worker had already created (and possibly partially written)
its temp file before failing. -/
inductive DlWorkerOutcome where
  | ok (content : List Nat)
  | err (e : TgCloudError) (wroteTemp : Bool)

/-- An observable side effect of download_file after the fan-out: an
event, a file removal, or the write of the merged output file. -/
inductive DlEff where
  | ev (s : DownloadStatus)
  | rm (path : String)
  | writeOut (content : List Nat)
  deriving Repr, DecidableEq

/-- Oracle inputs of one download_file call.  hash stands for the
hex-encoded SHA-256 digest function recomputed over the merged output;
workerOutcome i is chunk i's worker outcome; completionOrder the order
in which workers complete (a permutation of the chunk indices of the
stored metadata). -/
structure DlArgs where
  path : String
  outPath : String
  lookup : Except TgCloudError (Option FileMetadata)
  tokenMapResult : Except TgCloudError (List (String × String))
  workerOutcome : Nat → DlWorkerOutcome
  completionOrder : List Nat
  hash : List Nat → String

/-- The (index, temp-file content) pairs of the successful workers, in
completion order (service.rs lines 439-459: temp_files). -/
def successesOf (a : DlArgs) : List (Nat × List Nat) :=
  a.completionOrder.filterMap fun i =>
    match a.workerOutcome i with
    | .ok content => some (i, content)
    | .err _ _ => none

/-- The temp files on disk after the fan-out: every successful worker
wrote its temp file fully; a failed worker with wroteTemp left a
partially written one. -/
def writtenTempsOf (a : DlArgs) : List String :=
  a.completionOrder.filterMap fun i =>
    match a.workerOutcome i with
    | .ok _ => some (tempPath a.outPath i)
    | .err _ w => if w then some (tempPath a.outPath i) else none

/-- The first worker error in completion order (service.rs lines
440-459: first_error). -/
def firstWorkerError (a : DlArgs) : Option TgCloudError :=
  a.completionOrder.findSome? fun i =>
    match a.workerOutcome i with
    | .err e _ => some e
    | .ok _ => none

/-- The content of the merged output: the successful workers' temp
files concatenated in ascending index order (service.rs lines
476-498). -/
def mergedOf (a : DlArgs) : List Nat :=
  ((List.insertionSort (fun p q => p.1 ≤ q.1) (successesOf a)).map
    Prod.snd).flatten

/-- The observable outcome of one download_file call.  writtenTemps are
the temp files workers created on disk (successful workers wrote theirs
fully; failed workers with wroteTemp left a partial one);
tempsRemaining are those still on disk when the call returns; output is
the content of the output file if it exists when the call returns. -/
structure DlOutcome where
  result : Except TgCloudError Unit
  trace : List DlEff
  writtenTemps : List String
  tempsRemaining : List String
  output : Option (List Nat)

/-- service.rs, TgCloudService::download_file, lines 332-555: look up
metadata (no event on a miss — the error propagates before Started),
emit Started, resolve the token map (a failure here emits Failed), fan
out one worker per chunk, drain all workers, on any worker error remove
the successful workers' temp files and emit Failed, otherwise merge the
temp files in ascending index order, recompute the digest, on mismatch
remove the output and the temp files and emit Failed{IntegrityFailed},
otherwise remove the temp files and emit Completed. -/
def download_file (a : DlArgs) : DlOutcome :=
  match a.lookup with
  | .error e =>
      { result := .error e, trace := [], writtenTemps := [],
        tempsRemaining := [], output := none }
  | .ok none =>
      { result := .error (.fileNotFound a.path), trace := [],
        writtenTemps := [], tempsRemaining := [], output := none }
  | .ok (some file) =>
      let started := DlEff.ev (.started file.size file.total_chunks)
      match a.tokenMapResult with
      | .error e =>
          { result := .error e,
            trace := [started, .ev (.failed (errToString e))],
            writtenTemps := [], tempsRemaining := [], output := none }
      | .ok _tm =>
          let writtenTemps := writtenTempsOf a
          match firstWorkerError a with
          | some err =>
              let removed :=
                (successesOf a).map (fun p => tempPath a.outPath p.1)
              { result := .error err,
                trace := [started] ++ removed.map DlEff.rm ++
                  [.ev (.failed (errToString err))],
                writtenTemps := writtenTemps,
                tempsRemaining :=
                  writtenTemps.filter (fun t => !removed.contains t),
                output := none }
          | none =>
              let sortedOk :=
                List.insertionSort (fun p q => p.1 ≤ q.1) (successesOf a)
              let merged := mergedOf a
              let actual := a.hash merged
              let removed := sortedOk.map (fun p => tempPath a.outPath p.1)
              if actual ≠ file.sha256 then
                let e := TgCloudError.integrityFailed
                  ("SHA256 mismatch: expected " ++ file.sha256 ++
                   ", got " ++ actual)
                { result := .error e,
                  trace := [started, .ev .merging, .writeOut merged,
                      .ev .verifying, .rm a.outPath] ++
                    removed.map DlEff.rm ++
                    [.ev (.failed (errToString e))],
                  writtenTemps := writtenTemps,
                  tempsRemaining :=
                    writtenTemps.filter (fun t => !removed.contains t),
                  output := none }
              else
                { result := .ok (),
                  trace := [started, .ev .merging, .writeOut merged,
                      .ev .verifying] ++
                    removed.map DlEff.rm ++
                    [.ev (.completed a.outPath)],
                  writtenTemps := writtenTemps,
                  tempsRemaining :=
                    writtenTemps.filter (fun t => !removed.contains t),
                  output := some merged }

/-- Oracle inputs of one delete_file call: the metadata lookup, the
token-map resolution, the outcome of telegram.delete_message for each
chunk index, the completion order of the workers, and the outcome of
the final metadata-row removal. -/
structure DelArgs where
  path : String
  lookup : Except TgCloudError (Option FileMetadata)
  tokenMapResult : Except TgCloudError (List (String × String))
  deleteOutcome : Nat → Except TgCloudError Unit
  completionOrder : List Nat
  storeDelete : Except TgCloudError Unit

/-- The observable outcome of one delete_file call: its result and
whether the metadata row was removed from the store. -/
structure DelOutcome where
  result : Except TgCloudError Unit
  metadataRemoved : Bool

/-- The bot_id recorded in the chunk with the given index. -/
def botOfIndex (chunks : List FileChunk) (i : Nat) : String :=
  ((chunks.find? (fun c => c.index == i)).map (·.bot_id)).getD ""

/-- The error strings the delete drain loop collects, in completion
order: each worker wraps its delete_message failure as a DeleteFailed
naming the chunk index and its recorded bot (service.rs lines
619-646). -/
def deleteErrorsOf (a : DelArgs) (chunks : List FileChunk) : List String :=
  a.completionOrder.filterMap fun i =>
    match a.deleteOutcome i with
    | .ok _ => none
    | .error e =>
        some (errToString (.deleteFailed
          ("Failed to delete chunk " ++ toString i ++ " (bot " ++
           botOfIndex chunks i ++ "): " ++ errToString e)))

/-- service.rs, TgCloudService::delete_file, lines 565-662: look up
metadata, resolve tokens, fan out one delete worker per chunk (each
wrapping a delete_message failure as DeleteFailed naming the chunk
index and its recorded bot), drain all workers collecting every error
string in completion order; if any failed, return a DeleteFailed
enumerating the failure count over the chunk count and the error
strings joined with "; ", without removing metadata; only if all
succeeded is the metadata row deleted. -/
def delete_file (a : DelArgs) : DelOutcome :=
  match a.lookup with
  | .error e => { result := .error e, metadataRemoved := false }
  | .ok none =>
      { result := .error (.fileNotFound a.path), metadataRemoved := false }
  | .ok (some file) =>
      match a.tokenMapResult with
      | .error e => { result := .error e, metadataRemoved := false }
      | .ok _tm =>
          let errors := deleteErrorsOf a file.chunks
          if errors.isEmpty then
            match a.storeDelete with
            | .ok _ => { result := .ok (), metadataRemoved := true }
            | .error e => { result := .error e, metadataRemoved := false }
          else
            { result := .error (.deleteFailed
                ("Partial delete failure (" ++ toString errors.length ++
                 "/" ++ toString file.chunks.length ++
                 " chunks failed): " ++ String.intercalate "; " errors)),
              metadataRemoved := false }

/-- An execution of the upload-part retry in which attempt 0 streams
all 10 bytes of its chunk and then fails with a retryable server error,
and attempt 1 streams the same 10 bytes and succeeds. -/
def exPartAttempt : Nat → PartAttempt := fun k =>
  if k = 0 then
    { bytesRead := 10,
      outcome := .error (.uploadFailed "Server error (HTTP 500)") }
  else { bytesRead := 10, outcome := .ok ("tg", 7) }

/-- A download chunk worker execution whose resolver succeeds with URL
u1 and whose first GET attempt is rate limited while the second
succeeds. -/
def exDlWorker : DlWorkerArgs :=
  { resolveResult := .ok "u1",
    getResult := fun _ k =>
      if k = 0 then .error (.uploadFailed "Rate limited (HTTP 429)")
      else .ok (),
    streamResult := .ok [1, 2] }

/-- A download chunk worker execution whose resolver and first GET
succeed but whose body streaming fails mid-stream with a network
error. -/
def exDlWorkerStreamErr : DlWorkerArgs :=
  { resolveResult := .ok "u1",
    getResult := fun _ _ => .ok (),
    streamResult := .error (.telegramError "connection reset by peer") }

/-- A three-chunk file used by the delete_file witnesses. -/
def exDelFile : FileMetadata :=
  { file_id := "fid", original_name := "a.bin", size := 15,
    chunk_size := CHUNK_SIZE, total_chunks := 3, sha256 := "h",
    created_at := 0,
    chunks :=
      [{ index := 0, bot_id := "b1", telegram_file_id := "t0",
         message_id := 100, size := 5 },
       { index := 1, bot_id := "b2", telegram_file_id := "t1",
         message_id := 101, size := 5 },
       { index := 2, bot_id := "b3", telegram_file_id := "t2",
         message_id := 102, size := 5 }] }

/-- A delete_file call in which chunk 1's blob-tier deletion fails with
a 5xx-derived error and the other two succeed. -/
def exDelFail : DelArgs :=
  { path := "a.bin", lookup := .ok (some exDelFile),
    tokenMapResult := .ok [("b1", "T1"), ("b2", "T2"), ("b3", "T3")],
    deleteOutcome := fun i =>
      if i = 1 then .error (.uploadFailed "Delete failed: 500") else .ok (),
    completionOrder := [0, 1, 2], storeDelete := .ok () }

/-- A delete_file call in which every chunk deletion succeeds. -/
def exDelOk : DelArgs :=
  { path := "a.bin", lookup := .ok (some exDelFile),
    tokenMapResult := .ok [("b1", "T1"), ("b2", "T2"), ("b3", "T3")],
    deleteOutcome := fun _ => .ok (),
    completionOrder := [0, 1, 2], storeDelete := .ok () }

/-- A one-bot roster whose single bot has upload_count 0. -/
def exRoster : List Bot :=
  [{ bot_id := "b1", token := "T1", upload_count := 0, active := true }]

/-- A successful single-chunk upload over exRoster. -/
def exUploadOk : UploadArgs :=
  { path := "f.bin", totalSize := 10, sha256 := "h", chatId := "c",
    roster := exRoster,
    workerResult := fun _ => .ok ("tg0", 100),
    completionOrder := [0],
    saveResult := .ok (), fileId := "fid", createdAt := 0 }

/-- The upload_count recorded in the roster for the given bot. -/
def botCount (roster : List Bot) (id : String) : Nat :=
  ((roster.find? (fun b => b.bot_id == id)).map (·.upload_count)).getD 0

/-- The metadata exUploadOk persists. -/
def exMetaOk : FileMetadata :=
  { file_id := "fid", original_name := "f.bin", size := 10,
    chunk_size := CHUNK_SIZE, total_chunks := 1, sha256 := "h",
    created_at := 0,
    chunks := [{ index := 0, bot_id := "b1", telegram_file_id := "tg0",
                 message_id := 100, size := 10 }] }

/-- A three-bot roster stored in non-sorted order. -/
def exMultiRoster : List Bot :=
  [{ bot_id := "b2", token := "T2", upload_count := 5, active := true },
   { bot_id := "b1", token := "T1", upload_count := 9, active := true },
   { bot_id := "b3", token := "T3", upload_count := 1, active := true }]

/-- A successful 600 MiB (3-chunk) multi-bot upload over
exMultiRoster, with workers completing out of order. -/
def exUploadMulti : UploadArgs :=
  { path := "big.bin", totalSize := 629145600, sha256 := "h",
    chatId := "c", roster := exMultiRoster,
    workerResult := fun i => .ok ("tg", (100 : Int) + i),
    completionOrder := [2, 0, 1],
    saveResult := .ok (), fileId := "fid", createdAt := 0 }

/-- The metadata exUploadMulti persists: chunks 0, 1, 2 assigned to
b1, b2, b3 respectively. -/
def exMetaMulti : FileMetadata :=
  { file_id := "fid", original_name := "big.bin", size := 629145600,
    chunk_size := CHUNK_SIZE, total_chunks := 3, sha256 := "h",
    created_at := 0,
    chunks :=
      [{ index := 0, bot_id := "b1", telegram_file_id := "tg",
         message_id := 100, size := 268435456 },
       { index := 1, bot_id := "b2", telegram_file_id := "tg",
         message_id := 101, size := 268435456 },
       { index := 2, bot_id := "b3", telegram_file_id := "tg",
         message_id := 102, size := 92274688 }] }

/-- A two-chunk file used by the download witnesses. -/
def exDlMeta : FileMetadata :=
  { file_id := "fid", original_name := "a.bin", size := 10,
    chunk_size := CHUNK_SIZE, total_chunks := 2, sha256 := "h",
    created_at := 0,
    chunks :=
      [{ index := 0, bot_id := "b1", telegram_file_id := "t0",
         message_id := 100, size := 5 },
       { index := 1, bot_id := "b2", telegram_file_id := "t1",
         message_id := 101, size := 5 }] }

/-- A download_file call in which chunk 0's worker fails mid-stream —
its GET succeeded, its temp file was created and partially written, and
then stream.chunk() returned a network error (a reqwest error surfaced
as TelegramError, service.rs line 427) — while chunk 1's worker
succeeds. -/
def exDlFail : DlArgs :=
  { path := "a.bin", outPath := "out.bin", lookup := .ok (some exDlMeta),
    tokenMapResult := .ok [("b1", "T1"), ("b2", "T2")],
    workerOutcome := fun i =>
      if i = 0 then
        .err (.telegramError "connection reset by peer") true
      else .ok [5, 5, 5, 5, 5],
    completionOrder := [0, 1],
    hash := fun _ => "h" }

/-- A fully successful download of exDlMeta whose recomputed digest
matches the stored one. -/
def exDlOk : DlArgs :=
  { path := "a.bin", outPath := "out.bin", lookup := .ok (some exDlMeta),
    tokenMapResult := .ok [("b1", "T1"), ("b2", "T2")],
    workerOutcome := fun _ => .ok [1, 2, 3, 4, 5],
    completionOrder := [1, 0],
    hash := fun l => if l = [1, 2, 3, 4, 5, 1, 2, 3, 4, 5] then "h"
      else "x" }

/-- The same download with a digest function that never matches the
stored sha256 (modelling corrupted reassembly). -/
def exDlBad : DlArgs :=
  { path := "a.bin", outPath := "out.bin", lookup := .ok (some exDlMeta),
    tokenMapResult := .ok [("b1", "T1"), ("b2", "T2")],
    workerOutcome := fun _ => .ok [1, 2, 3, 4, 5],
    completionOrder := [1, 0],
    hash := fun _ => "x" }

/-- Whether an upload effect is a Failed event. -/
def isFailedEvU : UploadEff → Bool
  | .ev (.failed _) => true
  | _ => false

/-- A 600 MiB 3-chunk multi-bot upload in which chunk 1's worker fails
with a terminal blob-tier error while chunks 0 and 2 succeed; workers
complete in the order 2, 1, 0. -/
def exUploadFail : UploadArgs :=
  { path := "big.bin", totalSize := 629145600, sha256 := "h",
    chatId := "c", roster := exMultiRoster,
    workerResult := fun i =>
      if i = 1 then
        .error (.uploadFailed "Telegram API error (400 Bad Request): boom")
      else .ok ("tg", (100 : Int) + i),
    completionOrder := [2, 1, 0],
    saveResult := .ok (), fileId := "fid", createdAt := 0 }

/-- The active set of exMultiRoster sorted by bot_id. -/
def exSortedBots : List Bot :=
  [{ bot_id := "b1", token := "T1", upload_count := 9, active := true },
   { bot_id := "b2", token := "T2", upload_count := 5, active := true },
   { bot_id := "b3", token := "T3", upload_count := 1, active := true }]

/-! ## Theorems -/

theorem withRetryGo_attempts_le (f : Nat → Except TgCloudError α) :
    ∀ fuel attempt le, (withRetryGo f fuel attempt le).2 ≤ attempt + fuel := by
  intro fuel
  induction fuel with
  | zero => intro attempt le; simp [withRetryGo]
  | succ n ih =>
      intro attempt le
      simp only [withRetryGo]
      cases hf : f attempt with
      | ok v => simp
      | error e =>
          by_cases hr : is_retryable e
          · simp only [hr, if_true]
            have := ih (attempt + 1) (errToString e)
            omega
          · simp only [hr, if_false]
            simp

theorem withRetryGo_exhaust (f : Nat → Except TgCloudError α)
    (es : Nat → TgCloudError) :
    ∀ fuel attempt le, 0 < fuel →
    (∀ k, attempt ≤ k → k < attempt + fuel →
      f k = .error (es k) ∧ is_retryable (es k) = true) →
    withRetryGo f fuel attempt le =
      (.error (.retryExhausted MAX_RETRIES
        (errToString (es (attempt + fuel - 1)))), attempt + fuel) := by
  intro fuel
  induction fuel with
  | zero => intro attempt le h; omega
  | succ n ih =>
      intro attempt le _ hall
      have h0 := hall attempt (le_refl _) (by omega)
      simp only [withRetryGo, h0.1, h0.2, if_true]
      cases n with
      | zero => simp [withRetryGo]
      | succ m =>
          have := ih (attempt + 1) (errToString (es attempt)) (by omega)
            (fun k hk1 hk2 => hall k (by omega) (by omega))
          rw [this]
          have h1 : attempt + 1 + (m + 1) - 1 = attempt + (m + 1 + 1) - 1 := by
            omega
          have h2 : attempt + 1 + (m + 1) = attempt + (m + 1 + 1) := by omega
          rw [h1, h2]

theorem withRetryGo_success (f : Nat → Except TgCloudError α)
    (j : Nat) (v : α) (hj : f j = .ok v) :
    ∀ fuel attempt le, attempt ≤ j → j < attempt + fuel →
    (∀ k, attempt ≤ k → k < j →
      ∃ e, f k = .error e ∧ is_retryable e = true) →
    withRetryGo f fuel attempt le = (.ok v, j + 1) := by
  intro fuel
  induction fuel with
  | zero => intro attempt le h1 h2; omega
  | succ n ih =>
      intro attempt le h1 h2 hall
      by_cases haj : attempt = j
      · subst haj
        simp [withRetryGo, hj]
      · obtain ⟨e, he, hr⟩ := hall attempt (le_refl _) (by omega)
        simp only [withRetryGo, he, hr, if_true]
        exact ih (attempt + 1) (errToString e) (by omega) (by omega)
          (fun k hk1 hk2 => hall k (by omega) hk2)

theorem withRetryGo_nonretry (f : Nat → Except TgCloudError α)
    (j : Nat) (e : TgCloudError) (hj : f j = .error e)
    (hnr : is_retryable e = false) :
    ∀ fuel attempt le, attempt ≤ j → j < attempt + fuel →
    (∀ k, attempt ≤ k → k < j →
      ∃ e', f k = .error e' ∧ is_retryable e' = true) →
    withRetryGo f fuel attempt le = (.error e, j + 1) := by
  intro fuel
  induction fuel with
  | zero => intro attempt le h1 h2; omega
  | succ n ih =>
      intro attempt le h1 h2 hall
      by_cases haj : attempt = j
      · subst haj
        simp [withRetryGo, hj, hnr]
      · obtain ⟨e', he', hr'⟩ := hall attempt (le_refl _) (by omega)
        simp only [withRetryGo, he', hr', if_true]
        exact ih (attempt + 1) (errToString e') (by omega) (by omega)
          (fun k hk1 hk2 => hall k (by omega) hk2)

/-- C4: each blob-tier call is attempted at most 5 times; all-5
retryable failures yield RetryExhausted with attempts = 5 and the last
error's message; a success at attempt j < 5 after retryable failures
returns that success; a non-retryable error at any attempt j — in
particular after earlier retryable failures — is returned immediately,
after exactly j + 1 attempts and no further ones. -/
theorem retry_policy_spec (f : Nat → Except TgCloudError α)
    (es : Nat → TgCloudError) :
    (withRetryTrace f).2 ≤ 5 ∧
    ((∀ k, k < 5 → f k = .error (es k) ∧ is_retryable (es k) = true) →
      withRetryTrace f =
        (.error (.retryExhausted 5 (errToString (es 4))), 5)) ∧
    (∀ j v, j < 5 → f j = .ok v →
      (∀ k, k < j → ∃ e, f k = .error e ∧ is_retryable e = true) →
      withRetryTrace f = (.ok v, j + 1)) ∧
    (∀ j e, j < 5 → f j = .error e → is_retryable e = false →
      (∀ k, k < j → ∃ e', f k = .error e' ∧ is_retryable e' = true) →
      withRetryTrace f = (.error e, j + 1)) := by
  refine ⟨?_, ?_, ?_, ?_⟩
  · have := withRetryGo_attempts_le f MAX_RETRIES 0 ""
    simpa [withRetryTrace, MAX_RETRIES] using this
  · intro hall
    have := withRetryGo_exhaust f es MAX_RETRIES 0 "" (by decide)
      (fun k hk1 hk2 => hall k (by simpa [MAX_RETRIES] using hk2))
    simpa [withRetryTrace, MAX_RETRIES] using this
  · intro j v hj hfj hall
    have := withRetryGo_success f j v hfj MAX_RETRIES 0 "" (by omega)
      (by simp [MAX_RETRIES]; omega)
      (fun k _ hk2 => hall k hk2)
    simpa [withRetryTrace] using this
  · intro j e hj hfj hnr hall
    have := withRetryGo_nonretry f j e hfj hnr MAX_RETRIES 0 "" (by omega)
      (by simp [MAX_RETRIES]; omega)
      (fun k _ hk2 => hall k hk2)
    simpa [withRetryTrace] using this

/-- Witness for retry_policy_spec: a blob tier answering 429 on every
attempt exhausts after exactly 5 attempts; 429 on attempts 1-3 then
success on attempt 4 (0-based attempt 3) returns success after 4
attempts; a terminal error on the first attempt returns after exactly
1 attempt; 429 on attempt 1 then a terminal FileNotFound on attempt 2
returns that error after exactly 2 attempts. -/
theorem retry_policy_spec_witness :
    (withRetryTrace
        (fun _ => (.error (.uploadFailed "Rate limited (HTTP 429)") :
          Except TgCloudError Unit)) =
      (.error (.retryExhausted 5
        (errToString (.uploadFailed "Rate limited (HTTP 429)"))), 5)) ∧
    (withRetryTrace
        (fun k => if k < 3 then (.error (.rateLimited "429") :
          Except TgCloudError Unit) else .ok ()) = (.ok (), 4)) ∧
    (withRetryTrace
        (fun _ => (.error (.fileNotFound "x") :
          Except TgCloudError Unit)) = (.error (.fileNotFound "x"), 1)) ∧
    (withRetryTrace
        (fun k => if k = 0 then (.error (.rateLimited "429") :
          Except TgCloudError Unit) else .error (.fileNotFound "x")) =
      (.error (.fileNotFound "x"), 2)) := by
  refine ⟨?_, ?_, ?_, ?_⟩
  · exact (retry_policy_spec _
      (fun _ => .uploadFailed "Rate limited (HTTP 429)")).2.1
      (fun k _ => ⟨rfl, by decide⟩)
  · exact (retry_policy_spec _ (fun _ => .unknown "")).2.2.1 3 ()
      (by omega) (by simp)
      (fun k hk => ⟨.rateLimited "429", by simp [hk], rfl⟩)
  · exact (retry_policy_spec _ (fun _ => .unknown "")).2.2.2 0 _
      (by omega) rfl (by decide) (fun k hk => absurd hk (by omega))
  · exact (retry_policy_spec _ (fun _ => .unknown "")).2.2.2 1 _
      (by omega) rfl (by decide)
      (fun k hk => ⟨.rateLimited "429", by
        have : k = 0 := by omega
        simp [this], rfl⟩)

theorem uploadPartGo_counter_mono (att : Nat → PartAttempt) :
    ∀ fuel attempt counter le,
    counter ≤ (uploadPartGo att fuel attempt counter le).2.1 := by
  intro fuel
  induction fuel with
  | zero => intro attempt counter le; simp [uploadPartGo]
  | succ n ih =>
      intro attempt counter le
      simp only [uploadPartGo]
      cases ho : (att attempt).outcome with
      | ok v => simp
      | error e =>
          by_cases hr : is_retryable e
          · simp only [hr, if_true]
            have := ih (attempt + 1) (counter + (att attempt).bytesRead)
              (errToString e)
            omega
          · simp only [hr, if_false]
            simp

/-- C10: the shared progress counter is only ever incremented — from
any initial value, upload_part_with_retry can only increase it — and a
retried chunk re-streams through the same counter, so in the
exPartAttempt execution of a 10-byte chunk the final counter is 20,
exceeding the 10-byte total size. -/
theorem progress_counter_monotone_and_overcount :
    (∀ att init, init ≤ (upload_part_with_retry att init).2.1) ∧
    (upload_part_with_retry exPartAttempt 0).2.1 = 20 ∧
    (upload_part_with_retry exPartAttempt 0).2.2 = 2 ∧
    (upload_part_with_retry exPartAttempt 0).1 = .ok ("tg", 7) ∧
    10 < 20 :=
  ⟨fun att init => uploadPartGo_counter_mono att MAX_RETRIES 0 init "",
   by decide, by decide, rfl, by decide⟩

/-- Counterexample to C5: in the exDlWorker execution the retry makes
two GET attempts but the resolver (get_download_url) is invoked exactly
once, so a retry attempt does not re-invoke the resolver for a fresh
URL as the claim states. -/
theorem download_worker_reresolve_refuted :
    (download_chunk_worker exDlWorker).getUrls.length = 2 ∧
    (download_chunk_worker exDlWorker).resolveCalls = 1 ∧
    ¬((download_chunk_worker exDlWorker).resolveCalls =
      (download_chunk_worker exDlWorker).getUrls.length) := by
  refine ⟨by decide, by decide, by decide⟩

/-- C5 amended: for every download chunk worker, the resolver is
invoked exactly once; the retry wraps only the initial GET of the
stream — every GET attempt reuses the single URL obtained from that
one resolve_download call, and the number of GETs issued is exactly
the retry wrapper's attempt count — and a mid-stream failure after a
successful GET fails the worker with that error, issuing no further
GET (the attempt count is unchanged) and no further resolve. -/
theorem download_worker_single_resolve (a : DlWorkerArgs) :
    (download_chunk_worker a).resolveCalls = 1 ∧
    (∀ u, a.resolveResult = .ok u →
      (∀ x ∈ (download_chunk_worker a).getUrls, x = u) ∧
      (download_chunk_worker a).getUrls.length =
        (withRetryTrace (fun k => a.getResult u k)).2 ∧
      (∀ e, (withRetryTrace (fun k => a.getResult u k)).1 = .ok () →
        a.streamResult = .error e →
        (download_chunk_worker a).result = .error e)) := by
  refine ⟨?_, ?_⟩
  · simp only [download_chunk_worker]
    cases a.resolveResult <;> rfl
  · intro u hu
    refine ⟨?_, ?_, ?_⟩
    · intro x hx
      simp only [download_chunk_worker, hu] at hx
      exact List.eq_of_mem_replicate hx
    · simp only [download_chunk_worker, hu]
      exact List.length_replicate _ _
    · intro e hget hstream
      simp only [download_chunk_worker, hu, hget, hstream]

/-- Witness for download_worker_single_resolve at the exDlWorker
execution (one resolve, both GETs on the resolved URL, GET count equal
to the retry's attempt count) and at the exDlWorkerStreamErr execution
(a mid-stream failure after one successful GET fails the worker with
that error, with the single resolve and the single GET unchanged). -/
theorem download_worker_single_resolve_witness :
    (download_chunk_worker exDlWorker).resolveCalls = 1 ∧
    (∀ x ∈ (download_chunk_worker exDlWorker).getUrls, x = "u1") ∧
    (download_chunk_worker exDlWorker).getUrls.length =
      (withRetryTrace (fun k => exDlWorker.getResult "u1" k)).2 ∧
    (download_chunk_worker exDlWorkerStreamErr).result =
      .error (.telegramError "connection reset by peer") ∧
    (download_chunk_worker exDlWorkerStreamErr).resolveCalls = 1 ∧
    (download_chunk_worker exDlWorkerStreamErr).getUrls.length =
      (withRetryTrace
        (fun k => exDlWorkerStreamErr.getResult "u1" k)).2 :=
  ⟨(download_worker_single_resolve exDlWorker).1,
   fun x hx =>
     ((download_worker_single_resolve exDlWorker).2 "u1" rfl).1 x hx,
   ((download_worker_single_resolve exDlWorker).2 "u1" rfl).2.1,
   ((download_worker_single_resolve exDlWorkerStreamErr).2 "u1" rfl).2.2
     _ rfl rfl,
   (download_worker_single_resolve exDlWorkerStreamErr).1,
   ((download_worker_single_resolve exDlWorkerStreamErr).2 "u1" rfl).2.1⟩

theorem chunkSizeAt_sum (N : Nat) :
    ∀ k, ((List.range k).map (chunkSizeAt N)).sum = min (k * CHUNK_SIZE) N := by
  intro k
  induction k with
  | zero => simp
  | succ n ih =>
      rw [List.range_succ, List.map_append, List.sum_append]
      simp only [ih, List.map_cons, List.map_nil, List.sum_cons,
        List.sum_nil, chunkSizeAt, chunkOffset, Nat.succ_mul]
      simp only [Nat.min_def]
      split_ifs <;> omega

theorem lt_of_lt_ceilChunks (N i : Nat)
    (h : i < (N + CHUNK_SIZE - 1) / CHUNK_SIZE) : i * CHUNK_SIZE < N := by
  have h1 : i + 1 ≤ (N + CHUNK_SIZE - 1) / CHUNK_SIZE := h
  rw [Nat.le_div_iff_mul_le (by decide : 0 < CHUNK_SIZE)] at h1
  have h2 : (i + 1) * CHUNK_SIZE = i * CHUNK_SIZE + CHUNK_SIZE := by ring
  rw [h2] at h1
  have : (0 : Nat) < CHUNK_SIZE := by decide
  omega

theorem ceilChunks_mul_ge (N : Nat) :
    N ≤ (N + CHUNK_SIZE - 1) / CHUNK_SIZE * CHUNK_SIZE := by
  have hdm := Nat.div_add_mod (N + CHUNK_SIZE - 1) CHUNK_SIZE
  have hr := Nat.mod_lt (N + CHUNK_SIZE - 1) (by decide : 0 < CHUNK_SIZE)
  simp only [CHUNK_SIZE] at *
  omega

/-- Counterexample to C6 as universally stated: for a (hypothetical)
source of N = 2^60 bytes the planner's "as u32" cast truncates
div_ceil, yielding total_chunks = 0 instead of
max(1, ceil(N / CHUNK_SIZE)) = 2^32. -/
theorem chunk_planner_overflow_refuted :
    totalChunksOf (2 ^ 60) = 0 ∧
    max 1 ((2 ^ 60 + CHUNK_SIZE - 1) / CHUNK_SIZE) = 2 ^ 32 ∧
    ¬(totalChunksOf (2 ^ 60) =
      max 1 ((2 ^ 60 + CHUNK_SIZE - 1) / CHUNK_SIZE)) := by
  refine ⟨by decide, by decide, by decide⟩

/-- C6 amended: whenever ceil(N / CHUNK_SIZE) fits in u32 (every file
below 2^60 - 2^28 bytes, far beyond practical sizes), the planner
yields total_chunks = max(1, ceil(N / CHUNK_SIZE)); chunk i covers
[i*CHUNK_SIZE, min((i+1)*CHUNK_SIZE, N)); the chunk sizes sum to N; and
an empty file yields exactly one zero-length chunk. -/
theorem chunk_planner_spec (N : Nat)
    (h : (N + CHUNK_SIZE - 1) / CHUNK_SIZE < 2 ^ 32) :
    totalChunksOf N = max 1 ((N + CHUNK_SIZE - 1) / CHUNK_SIZE) ∧
    (∀ i, i < totalChunksOf N →
      chunkOffset i = i * CHUNK_SIZE ∧
      chunkOffset i + chunkSizeAt N i = min ((i + 1) * CHUNK_SIZE) N) ∧
    ((List.range (totalChunksOf N)).map (chunkSizeAt N)).sum = N ∧
    (N = 0 → totalChunksOf N = 1 ∧ chunkSizeAt N 0 = 0) := by
  have hC : (0 : Nat) < CHUNK_SIZE := by decide
  by_cases hN : N = 0
  · subst hN
    refine ⟨by decide, ?_, by decide, fun _ => by decide⟩
    intro i hi
    have : i = 0 := by
      simp [totalChunksOf] at hi
      omega
    subst this
    constructor
    · rfl
    · simp [chunkOffset, chunkSizeAt]
  · have hceil : 1 ≤ (N + CHUNK_SIZE - 1) / CHUNK_SIZE := by
      rw [Nat.le_div_iff_mul_le hC]
      omega
    have htc : totalChunksOf N = (N + CHUNK_SIZE - 1) / CHUNK_SIZE := by
      simp only [totalChunksOf, if_neg hN]
      exact Nat.mod_eq_of_lt h
    refine ⟨?_, ?_, ?_, fun h0 => absurd h0 hN⟩
    · rw [htc]; omega
    · intro i hi
      rw [htc] at hi
      have hlt := lt_of_lt_ceilChunks N i hi
      refine ⟨rfl, ?_⟩
      simp only [chunkSizeAt, chunkOffset, Nat.succ_mul, Nat.min_def]
      split_ifs <;> omega
    · rw [htc, chunkSizeAt_sum]
      have := ceilChunks_mul_ge N
      omega

/-- Witness for chunk_planner_spec: a 600 MiB file plans 3 chunks whose
sizes sum to 629145600, the last chunk ends at the file size, and the
empty file plans one zero-length chunk. -/
theorem chunk_planner_spec_witness :
    totalChunksOf 629145600 = 3 ∧
    chunkOffset 2 + chunkSizeAt 629145600 2 =
      min (3 * CHUNK_SIZE) 629145600 ∧
    ((List.range (totalChunksOf 629145600)).map
      (chunkSizeAt 629145600)).sum = 629145600 ∧
    totalChunksOf 0 = 1 ∧ chunkSizeAt 0 0 = 0 := by
  have h := chunk_planner_spec 629145600 (by decide)
  have h0 := chunk_planner_spec 0 (by decide)
  exact ⟨by decide, (h.2.1 2 (by decide)).2, h.2.2.1,
    (h0.2.2.2 rfl).1, (h0.2.2.2 rfl).2⟩

/-- C3: if any per-chunk blob-tier deletion fails, delete_file returns
a DeleteFailed enumerating the failure count over the chunk count and
the joined error messages, and the metadata row is not removed; the
metadata row is deleted only if every chunk deletion succeeded. -/
theorem delete_file_metadata_guard (a : DelArgs) (file : FileMetadata)
    (tm : List (String × String))
    (hl : a.lookup = .ok (some file))
    (ht : a.tokenMapResult = .ok tm)
    (hperm : a.completionOrder.Perm (file.chunks.map (·.index))) :
    ((deleteErrorsOf a file.chunks ≠ []) →
       (delete_file a).result = .error (.deleteFailed
         ("Partial delete failure (" ++
          toString (deleteErrorsOf a file.chunks).length ++ "/" ++
          toString file.chunks.length ++ " chunks failed): " ++
          String.intercalate "; " (deleteErrorsOf a file.chunks))) ∧
       (delete_file a).metadataRemoved = false) ∧
    ((delete_file a).metadataRemoved = true →
       ∀ c ∈ file.chunks, a.deleteOutcome c.index = .ok ()) := by
  constructor
  · intro hne
    have hfalse : (deleteErrorsOf a file.chunks).isEmpty = false := by
      cases hdl : deleteErrorsOf a file.chunks with
      | nil => exact absurd hdl hne
      | cons x xs => rfl
    simp [delete_file, hl, ht, hfalse]
  · intro hrem c hc
    by_cases hne : deleteErrorsOf a file.chunks = []
    · have h1 := List.filterMap_eq_nil_iff.mp hne
      have hidx : c.index ∈ a.completionOrder :=
        hperm.mem_iff.mpr (List.mem_map_of_mem _ hc)
      have h2 := h1 c.index hidx
      cases hdo : a.deleteOutcome c.index with
      | ok u => cases u; rfl
      | error e => rw [hdo] at h2; simp at h2
    · exfalso
      have hfalse : (deleteErrorsOf a file.chunks).isEmpty = false := by
        cases hdl : deleteErrorsOf a file.chunks with
        | nil => exact absurd hdl hne
        | cons x xs => rfl
      rw [delete_file, hl, ht] at hrem
      simp [hfalse] at hrem

/-- Witness for delete_file_metadata_guard: with one of three chunk
deletions failing the call surfaces the enumerated DeleteFailed and
keeps the metadata; with all three succeeding every per-chunk outcome
was ok. -/
theorem delete_file_metadata_guard_witness :
    ((delete_file exDelFail).result = .error (.deleteFailed
       ("Partial delete failure (" ++
        toString (deleteErrorsOf exDelFail exDelFile.chunks).length ++
        "/" ++ toString exDelFile.chunks.length ++ " chunks failed): " ++
        String.intercalate "; " (deleteErrorsOf exDelFail exDelFile.chunks))) ∧
     (delete_file exDelFail).metadataRemoved = false) ∧
    (∀ c ∈ exDelFile.chunks, exDelOk.deleteOutcome c.index = .ok ()) :=
  ⟨(delete_file_metadata_guard exDelFail exDelFile _ rfl rfl
      (List.Perm.refl _)).1 (by decide),
   fun c hc =>
    (delete_file_metadata_guard exDelOk exDelFile _ rfl rfl
      (List.Perm.refl _)).2 (by decide) c hc⟩

theorem foldl_increment_bot_usage :
    ∀ (l : List String) (r : List Bot),
    l.foldl increment_bot_usage r = r := by
  intro l
  induction l with
  | nil => intro r; rfl
  | cons x xs ih => intro r; simpa [increment_bot_usage] using ih r

theorem mem_dedupFirstAux (x : String) :
    ∀ (l seen : List String),
    x ∈ dedupFirstAux seen l ↔ x ∈ l ∧ x ∉ seen := by
  intro l
  induction l with
  | nil => intro seen; simp [dedupFirstAux]
  | cons y ys ih =>
      intro seen
      simp only [dedupFirstAux]
      split_ifs with hy
      · rw [ih seen]
        simp only [List.mem_cons]
        constructor
        · rintro ⟨h1, h2⟩
          exact ⟨Or.inr h1, h2⟩
        · rintro ⟨h1 | h1, h2⟩
          · subst h1; exact absurd hy h2
          · exact ⟨h1, h2⟩
      · simp only [List.mem_cons, ih (y :: seen), List.mem_cons]
        constructor
        · rintro (h | ⟨h1, h2⟩)
          · subst h; exact ⟨Or.inl rfl, hy⟩
          · exact ⟨Or.inr h1, fun hx => h2 (Or.inr hx)⟩
        · rintro ⟨h1 | h1, h2⟩
          · exact Or.inl h1
          · by_cases hxy : x = y
            · exact Or.inl hxy
            · exact Or.inr ⟨h1, fun hmem =>
                hmem.elim (fun h => hxy h) (fun h => h2 h)⟩

theorem nodup_dedupFirstAux :
    ∀ (l seen : List String), (dedupFirstAux seen l).Nodup := by
  intro l
  induction l with
  | nil => intro seen; simp [dedupFirstAux]
  | cons y ys ih =>
      intro seen
      simp only [dedupFirstAux]
      split_ifs with hy
      · exact ih seen
      · refine List.Nodup.cons ?_ (ih (y :: seen))
        intro hmem
        exact ((mem_dedupFirstAux y ys (y :: seen)).mp hmem).2
          (List.mem_cons_self _ _)

theorem countP_eq_ite_of_nodup (b : String) :
    ∀ (l : List String), l.Nodup →
    l.countP (fun c => decide (c = b)) = if b ∈ l then 1 else 0 := by
  intro l
  induction l with
  | nil => intro h; simp
  | cons x xs ih =>
      intro hnd
      rw [List.countP_cons, ih hnd.of_cons]
      by_cases hxb : x = b
      · subst hxb
        have hx : x ∉ xs := (List.nodup_cons.mp hnd).1
        simp [hx]
      · simp [hxb, Ne.symm hxb]

/-- Counterexample to C9: the exUploadOk call succeeds and performs the
increment_usage call for its participating bot b1, yet the persisted
upload_count of b1 is unchanged (0, not 1), because
MongoStore::increment_bot_usage is a no-op. -/
theorem upload_count_increment_refuted :
    (upload_file exUploadOk).result = .ok () ∧
    UploadEff.incUsage "b1" ∈ (upload_file exUploadOk).trace ∧
    botCount exUploadOk.roster "b1" = 0 ∧
    botCount (upload_file exUploadOk).finalRoster "b1" = 0 ∧
    ¬(botCount (upload_file exUploadOk).finalRoster "b1" =
      botCount exUploadOk.roster "b1" + 1) := by
  refine ⟨by decide, by decide, by decide, by decide, by decide⟩

/-- C9 amended: on every successful upload the engine calls
increment_usage exactly once per distinct participating bot (the
incUsage effects in the trace), but the persisted roster is unchanged,
because the store's increment_bot_usage is an explicit no-op; the
increment therefore cannot fail, and the upload result does not depend
on it. -/
theorem upload_usage_increment_noop (a : UploadArgs) (meta : FileMetadata)
    (hp : (upload_file a).persisted = some meta) :
    (upload_file a).finalRoster = a.roster ∧
    ∀ b, ((upload_file a).trace.countP
        (fun x => decide (x = UploadEff.incUsage b))) =
      if b ∈ dedupFirst (meta.chunks.map (·.bot_id)) then 1 else 0 := by
  cases hsel : selectBots a.roster (decide (a.totalSize > CHUNK_SIZE)) with
  | error e => simp [upload_file, hsel] at hp
  | ok bots =>
      cases herr : firstChunkError a with
      | some err => simp [upload_file, hsel, herr] at hp
      | none =>
          cases hsave : a.saveResult with
          | error e => simp [upload_file, hsel, herr, hsave] at hp
          | ok u =>
              cases u
              simp only [upload_file, hsel, herr, hsave] at hp ⊢
              have hmeta : uploadMeta a bots = meta := by
                simpa using hp
              constructor
              · exact foldl_increment_bot_usage _ _
              · intro b
                rw [List.countP_append, List.countP_append,
                  List.countP_append]
                have h0 : (uploadEv0 a).countP
                    (fun x => decide (x = UploadEff.incUsage b)) = 0 := by
                  simp [uploadEv0]
                have h1 : ([UploadEff.save (uploadMeta a bots)]).countP
                    (fun x => decide (x = UploadEff.incUsage b)) = 0 := by
                  simp
                have h2 : ([UploadEff.ev (.completed a.fileId)]).countP
                    (fun x => decide (x = UploadEff.incUsage b)) = 0 := by
                  simp
                have h3 : ((usageBotsOf a bots).map UploadEff.incUsage).countP
                    (fun x => decide (x = UploadEff.incUsage b)) =
                    if b ∈ dedupFirst (meta.chunks.map (·.bot_id))
                    then 1 else 0 := by
                  rw [List.countP_map]
                  have hcong : ((fun x => decide (x = UploadEff.incUsage b))
                      ∘ UploadEff.incUsage) =
                      (fun c => decide (c = b)) := by
                    funext c
                    simp [Function.comp, UploadEff.incUsage.injEq]
                  rw [hcong]
                  have := countP_eq_ite_of_nodup b (usageBotsOf a bots)
                    (nodup_dedupFirstAux _ _)
                  rw [this]
                  simp only [usageBotsOf, hmeta]
                rw [h0, h1, h2, h3]
                omega

/-- Witness for upload_usage_increment_noop at the exUploadOk call. -/
theorem upload_usage_increment_noop_witness :
    (upload_file exUploadOk).finalRoster = exUploadOk.roster ∧
    ((upload_file exUploadOk).trace.countP
      (fun x => decide (x = UploadEff.incUsage "b1"))) = 1 := by
  have h := upload_usage_increment_noop exUploadOk exMetaOk (by decide)
  refine ⟨h.1, ?_⟩
  rw [h.2 "b1"]
  decide

theorem strLeList_total :
    ∀ l1 l2 : List Char, strLeList l1 l2 = true ∨ strLeList l2 l1 = true := by
  intro l1
  induction l1 with
  | nil => intro l2; left; rfl
  | cons a as ih =>
      intro l2
      cases l2 with
      | nil => right; rfl
      | cons b bs =>
          simp only [strLeList]
          by_cases h1 : a.toNat < b.toNat
          · left; simp [h1]
          · by_cases h2 : b.toNat < a.toNat
            · right; simp [h2]
            · cases ih bs with
              | inl h => left; simp [h1, h2, h]
              | inr h => right; simp [h1, h2, h]

theorem strLeList_trans :
    ∀ l1 l2 l3 : List Char, strLeList l1 l2 = true →
    strLeList l2 l3 = true → strLeList l1 l3 = true := by
  intro l1
  induction l1 with
  | nil => intro l2 l3 _ _; rfl
  | cons a as ih =>
      intro l2 l3 h12 h23
      cases l2 with
      | nil => simp [strLeList] at h12
      | cons b bs =>
          cases l3 with
          | nil => simp [strLeList] at h23
          | cons c cs =>
              simp only [strLeList] at h12 h23 ⊢
              split_ifs at h12 with hab hba
              · split_ifs at h23 with hbc hcb
                · have hac : a.toNat < c.toNat := by omega
                  simp [hac]
                · have hac : a.toNat < c.toNat := by omega
                  simp [hac]
              · split_ifs at h23 with hbc hcb
                · have hac : a.toNat < c.toNat := by omega
                  simp [hac]
                · have h1 : ¬ a.toNat < c.toNat := by omega
                  have h2 : ¬ c.toNat < a.toNat := by omega
                  simp only [h1, h2, if_false]
                  exact ih bs cs h12 h23

theorem strLe_total : ∀ s t : String, strLe s t = true ∨ strLe t s = true :=
  fun s t => strLeList_total s.toList t.toList

theorem strLe_trans : ∀ s t u : String, strLe s t = true →
    strLe t u = true → strLe s u = true :=
  fun s t u => strLeList_trans s.toList t.toList u.toList

/-- C7: for every multi-bot upload (N > CHUNK_SIZE) that persists
metadata, the engine used the full active set sorted by bot_id — the
sorted list has one entry per active roster bot and its bot_id
projection is sorted — and every persisted chunk's bot is the one at
index (chunk index mod B) of that sorted list, where B is the
active-bot count. -/
theorem multi_bot_round_robin (a : UploadArgs) (meta : FileMetadata)
    (hmulti : CHUNK_SIZE < a.totalSize)
    (hp : (upload_file a).persisted = some meta) :
    List.Sorted (fun x y : String => strLe x y = true)
      ((get_active_bots a.roster).map (·.bot_id)) ∧
    (get_active_bots a.roster).length =
      (a.roster.filter (·.active)).length ∧
    ∀ c ∈ meta.chunks,
      c.bot_id = ((get_active_bots a.roster).map (·.bot_id)).getD
        (c.index % (get_active_bots a.roster).length) "" := by
  have hdec : decide (a.totalSize > CHUNK_SIZE) = true := by
    simpa using hmulti
  refine ⟨?_, ?_, ?_⟩
  · letI : IsTotal Bot (fun a b => strLe a.bot_id b.bot_id = true) :=
      ⟨fun a b => strLe_total a.bot_id b.bot_id⟩
    letI : IsTrans Bot (fun a b => strLe a.bot_id b.bot_id = true) :=
      ⟨fun _ _ _ h1 h2 => strLe_trans _ _ _ h1 h2⟩
    have hs := List.sorted_insertionSort
      (fun a b : Bot => strLe a.bot_id b.bot_id = true)
      (a.roster.filter (·.active))
    exact List.Pairwise.map _ (fun x y h => h) hs
  · exact (List.perm_insertionSort _ _).length_eq
  · intro c hc
    cases hsel : selectBots a.roster (decide (a.totalSize > CHUNK_SIZE)) with
    | error e => simp [upload_file, hsel] at hp
    | ok bots =>
        have hbots : bots = get_active_bots a.roster := by
          rw [selectBots, hdec] at hsel
          simp only [if_true] at hsel
          rw [get_all_active_bots] at hsel
          by_cases he : (refresh_cache a.roster).isEmpty
          · rw [if_pos he] at hsel; cases hsel
          · rw [if_neg he] at hsel
            injection hsel with h
            exact h.symm
        have hmeta : meta = uploadMeta a bots := by
          cases herr : firstChunkError a with
          | some err => simp [upload_file, hsel, herr] at hp
          | none =>
              cases hsave : a.saveResult with
              | error e => simp [upload_file, hsel, herr, hsave] at hp
              | ok u =>
                  simp only [upload_file, hsel, herr, hsave] at hp
                  simpa using hp.symm
        rw [hmeta] at hc
        have hc2 : c ∈ uploadChunksOf a (bots.map (·.bot_id)) :=
          (List.perm_insertionSort
            (fun c d : FileChunk => c.index ≤ d.index)
            (uploadChunksOf a (bots.map (·.bot_id)))).subset hc
        rw [uploadChunksOf] at hc2
        obtain ⟨i, hi, hsome⟩ := List.mem_filterMap.mp hc2
        cases hw : a.workerResult i with
        | error e => rw [hw] at hsome; simp at hsome
        | ok p =>
            rw [hw] at hsome
            obtain ⟨tg, msg⟩ := p
            simp only [Option.some.injEq] at hsome
            subst hsome
            simp only [workerChunk, assignedBot, hbots, List.length_map]

/-- Witness for multi_bot_round_robin at the exUploadMulti call. -/
theorem multi_bot_round_robin_witness :
    List.Sorted (fun x y : String => strLe x y = true)
      ((get_active_bots exUploadMulti.roster).map (·.bot_id)) ∧
    (get_active_bots exUploadMulti.roster).length = 3 ∧
    ∀ c ∈ exMetaMulti.chunks,
      c.bot_id = ((get_active_bots exUploadMulti.roster).map
        (·.bot_id)).getD
        (c.index % (get_active_bots exUploadMulti.roster).length) "" := by
  have h := multi_bot_round_robin exUploadMulti exMetaMulti (by decide)
    (by decide)
  exact ⟨h.1, by decide, h.2.2⟩

/-- Counterexample to C8: in the exDlFail call the failed worker's
partially written temp file (out.bin.chunk_0.tmp) was written but is
not among the files the cleanup deletes, so it remains on disk when the
error is returned — the claim that all written temp files are deleted
fails. -/
theorem download_temp_cleanup_refuted :
    tempPath "out.bin" 0 ∈ (download_file exDlFail).writtenTemps ∧
    (download_file exDlFail).tempsRemaining = [tempPath "out.bin" 0] ∧
    (download_file exDlFail).tempsRemaining ≠ [] := by
  refine ⟨by decide, by decide, by decide⟩

/-- C8 amended: on any download worker failure the engine deletes the
temp files of the workers that completed successfully — those deletions
all precede the single Failed event, which precedes the return of the
first observed error — but a failed worker's own partially written temp
file is not removed: exactly the written temp files outside the
successful set remain. -/
theorem download_cleanup_on_failure (a : DlArgs) (file : FileMetadata)
    (tm : List (String × String)) (err : TgCloudError)
    (hl : a.lookup = .ok (some file))
    (ht : a.tokenMapResult = .ok tm)
    (hfe : firstWorkerError a = some err) :
    (download_file a).result = .error err ∧
    (download_file a).trace =
      [DlEff.ev (.started file.size file.total_chunks)] ++
      ((successesOf a).map (fun p => DlEff.rm (tempPath a.outPath p.1))) ++
      [.ev (.failed (errToString err))] ∧
    (download_file a).tempsRemaining =
      (writtenTempsOf a).filter
        (fun t => !(((successesOf a).map
          (fun p => tempPath a.outPath p.1)).contains t)) := by
  refine ⟨?_, ?_, ?_⟩
  · simp [download_file, hl, ht, hfe]
  · simp [download_file, hl, ht, hfe, List.map_map]
  · simp [download_file, hl, ht, hfe]

/-- Witness for download_cleanup_on_failure at the exDlFail call: the
successful worker's temp (chunk 1) is removed before the Failed event
and the first worker error is returned. -/
theorem download_cleanup_on_failure_witness :
    (download_file exDlFail).result =
      .error (.telegramError "connection reset by peer") ∧
    (download_file exDlFail).trace =
      [DlEff.ev (.started 10 2), DlEff.rm (tempPath "out.bin" 1),
       DlEff.ev (.failed (errToString
         (.telegramError "connection reset by peer")))] := by
  have h := download_cleanup_on_failure exDlFail exDlMeta _ _ rfl rfl rfl
  refine ⟨h.1, ?_⟩
  rw [h.2.1]
  decide

/-- C2: download_file returns success only when the recomputed digest
of the merged output equals the stored sha256; when every worker
succeeded, a matching digest yields success with the merged content on
disk, and a mismatch deletes the output file and every temp file, emits
the Failed event carrying the IntegrityFailed message as the last
event, and returns IntegrityFailed (no retry: the run ends there). -/
theorem download_integrity (a : DlArgs) (file : FileMetadata)
    (tm : List (String × String))
    (hl : a.lookup = .ok (some file))
    (ht : a.tokenMapResult = .ok tm) :
    ((download_file a).result = .ok () →
      firstWorkerError a = none ∧ a.hash (mergedOf a) = file.sha256) ∧
    (firstWorkerError a = none →
      (a.hash (mergedOf a) = file.sha256 →
        (download_file a).result = .ok () ∧
        (download_file a).output = some (mergedOf a)) ∧
      (a.hash (mergedOf a) ≠ file.sha256 →
        (download_file a).result = .error (.integrityFailed
          ("SHA256 mismatch: expected " ++ file.sha256 ++ ", got " ++
           a.hash (mergedOf a))) ∧
        (download_file a).output = none ∧
        (download_file a).tempsRemaining = [] ∧
        (download_file a).trace.getLast? = some (.ev (.failed (errToString
          (.integrityFailed ("SHA256 mismatch: expected " ++ file.sha256 ++
           ", got " ++ a.hash (mergedOf a)))))))) := by
  have hremsub : ∀ t ∈ writtenTempsOf a, firstWorkerError a = none →
      t ∈ (List.insertionSort (fun p q => p.1 ≤ q.1)
        (successesOf a)).map (fun p => tempPath a.outPath p.1) := by
    intro t hmem hfe
    obtain ⟨i, hi, hsome⟩ := List.mem_filterMap.mp hmem
    rw [firstWorkerError, List.findSome?_eq_none_iff] at hfe
    cases hw : a.workerOutcome i with
    | err e w =>
        have := hfe i hi
        rw [hw] at this
        simp at this
    | ok content =>
        rw [hw] at hsome
        simp only [Option.some.injEq] at hsome
        subst hsome
        have hsucc : (i, content) ∈ successesOf a :=
          List.mem_filterMap.mpr ⟨i, hi, by rw [hw]⟩
        have hsort : (i, content) ∈ List.insertionSort
            (fun p q => p.1 ≤ q.1) (successesOf a) :=
          (List.perm_insertionSort _ _).symm.subset hsucc
        exact List.mem_map_of_mem _ hsort
  constructor
  · intro hres
    cases hfe : firstWorkerError a with
    | some err => simp [download_file, hl, ht, hfe] at hres
    | none =>
        refine ⟨rfl, ?_⟩
        by_cases hh : a.hash (mergedOf a) = file.sha256
        · exact hh
        · simp [download_file, hl, ht, hfe, hh] at hres
  · intro hfe
    constructor
    · intro hh
      simp only [download_file, hl, ht, hfe]
      rw [if_neg (fun hne => hne hh)]
      exact ⟨rfl, rfl⟩
    · intro hh
      simp only [download_file, hl, ht, hfe]
      rw [if_pos hh]
      have hlast : ∀ (l1 l2 : List DlEff) (x : DlEff),
          (l1 ++ (l2 ++ [x])).getLast? = some x := by
        intro l1 l2 x
        rw [← List.append_assoc]
        exact List.getLast?_concat _
      refine ⟨rfl, rfl, ?_, hlast
        [DlEff.ev (.started file.size file.total_chunks), .ev .merging,
         .writeOut (mergedOf a), .ev .verifying, .rm a.outPath]
        (List.map DlEff.rm (List.map (fun p => tempPath a.outPath p.1)
          (List.insertionSort (fun p q => p.1 ≤ q.1) (successesOf a))))
        (.ev (.failed (errToString (.integrityFailed
          ("SHA256 mismatch: expected " ++ file.sha256 ++ ", got " ++
           a.hash (mergedOf a))))))⟩
      rw [List.filter_eq_nil_iff]
      intro t ht2
      have hmem := hremsub t ht2 hfe
      have hcont : (List.map (fun p => tempPath a.outPath p.1)
          (List.insertionSort (fun p q => p.1 ≤ q.1)
            (successesOf a))).contains t = true :=
        List.elem_eq_true_of_mem hmem
      simp only [hcont, Bool.not_true]
      simp

/-- Witness for download_integrity: the matching-digest run succeeds;
the mismatching run returns IntegrityFailed, deletes the output and
leaves no temp file behind. -/
theorem download_integrity_witness :
    (download_file exDlOk).result = .ok () ∧
    exDlOk.hash (mergedOf exDlOk) = exDlMeta.sha256 ∧
    (download_file exDlBad).result = .error (.integrityFailed
      ("SHA256 mismatch: expected " ++ exDlMeta.sha256 ++ ", got " ++
       exDlBad.hash (mergedOf exDlBad))) ∧
    (download_file exDlBad).output = none ∧
    (download_file exDlBad).tempsRemaining = [] := by
  have hok := download_integrity exDlOk exDlMeta _ rfl rfl
  have hbad := download_integrity exDlBad exDlMeta _ rfl rfl
  refine ⟨((hok.2 rfl).1 (by decide)).1, by decide, ?_, ?_, ?_⟩
  · exact ((hbad.2 rfl).2 (by decide)).1
  · exact ((hbad.2 rfl).2 (by decide)).2.1
  · exact ((hbad.2 rfl).2 (by decide)).2.2.1

theorem selectBots_ne_nil (roster : List Bot) (m : Bool) (bots : List Bot)
    (h : selectBots roster m = .ok bots) : bots ≠ [] := by
  cases m with
  | true =>
      rw [selectBots] at h
      simp only [if_true] at h
      rw [get_all_active_bots] at h
      by_cases he : (refresh_cache roster).isEmpty
      · rw [if_pos he] at h; cases h
      · rw [if_neg he] at h
        injection h with h2
        subst h2
        intro hnil
        rw [hnil] at he
        exact he rfl
  | false =>
      rw [selectBots] at h
      simp only [Bool.false_eq_true, if_false] at h
      rw [get_upload_bot] at h
      cases hs : List.insertionSort
          (fun a b => a.upload_count ≤ b.upload_count)
          (refresh_cache roster) with
      | nil => rw [hs] at h; cases h
      | cons b bs =>
          rw [hs] at h
          injection h with h2
          subst h2
          simp

theorem lookup_tokenMapOf (bots : List Bot) (b : String)
    (hb : b ∈ bots.map (·.bot_id)) :
    ∃ t, List.lookup b (tokenMapOf bots) = some t := by
  induction bots with
  | nil => simp at hb
  | cons c cs ih =>
      simp only [tokenMapOf, List.map_cons, List.lookup]
      by_cases hbc : b == c.bot_id
      · exact ⟨c.token, by simp [hbc]⟩
      · simp only [List.map_cons, List.mem_cons] at hb
        cases hb with
        | inl h =>
            exfalso
            exact absurd (beq_iff_eq.mpr h) (by simpa using hbc)
        | inr h =>
            obtain ⟨t, ht⟩ := ih h
            exact ⟨t, by simp only [hbc]; simpa [tokenMapOf] using ht⟩

theorem assignedBot_mem (botIds : List String) (h : botIds ≠ [])
    (i : Nat) : assignedBot botIds i ∈ botIds := by
  have hpos : 0 < botIds.length := List.length_pos.mpr h
  have hlt : i % botIds.length < botIds.length := Nat.mod_lt _ hpos
  rw [assignedBot, List.getD_eq_getElem?_getD,
    List.getElem?_eq_getElem hlt]
  exact List.getElem_mem hlt

theorem countP_isFailedEvU_rollback (a : UploadArgs) (bots : List Bot)
    (cs : List FileChunk) :
    (uploadRollback a bots cs).countP isFailedEvU = 0 := by
  rw [List.countP_eq_zero]
  intro x hx
  obtain ⟨c, hc, hcx⟩ := List.mem_filterMap.mp hx
  cases hlk : List.lookup c.bot_id (tokenMapOf bots) with
  | none => rw [hlk] at hcx; simp at hcx
  | some t =>
      rw [hlk] at hcx
      simp only [Option.map_some', Option.some.injEq] at hcx
      rw [← hcx]
      simp [isFailedEvU]

/-- The delete effect the rollback pass performs for a successful chunk
worker exists in the rollback list, using the token looked up by the
chunk's own bot_id and the chunk's own message id. -/
theorem uploadRollback_mem (a : UploadArgs) (bots : List Bot)
    (cs : List FileChunk) (c : FileChunk) (hc : c ∈ cs) (t : String)
    (hlk : List.lookup c.bot_id (tokenMapOf bots) = some t) :
    UploadEff.del t a.chatId c.message_id ∈ uploadRollback a bots cs :=
  List.mem_filterMap.mpr ⟨c, hc, by rw [hlk]; rfl⟩

/-- C1: for every upload_file call in which some chunk worker fails or
the metadata insert fails, after draining all workers (completionOrder
covers every planned chunk) no metadata is persisted; the call returns
the first observed error — first worker error in completion order, else
the insert error — the trace ends with the single Failed event carrying
that error, and for every successfully uploaded chunk a deleteMessage
effect with that chunk's own bot's token and the chunk's own message id
is in the trace. -/
theorem upload_rollback_on_failure (a : UploadArgs) (bots : List Bot)
    (hsel : selectBots a.roster (decide (a.totalSize > CHUNK_SIZE)) =
      .ok bots)
    (hperm : a.completionOrder.Perm
      (List.range (totalChunksOf a.totalSize)))
    (hfail : (∃ i ∈ a.completionOrder, ∃ e,
        a.workerResult i = .error e) ∨
      (∃ e, a.saveResult = .error e)) :
    (upload_file a).persisted = none ∧
    (∃ e, (upload_file a).result = .error e ∧
      firstUploadError a = some e ∧
      (upload_file a).trace.getLast? =
        some (.ev (.failed (errToString e)))) ∧
    (upload_file a).trace.countP isFailedEvU = 1 ∧
    (∀ i ∈ List.range (totalChunksOf a.totalSize), ∀ tg msg,
      a.workerResult i = .ok (tg, msg) →
      ∃ t, List.lookup (assignedBot (bots.map (·.bot_id)) i)
             (tokenMapOf bots) = some t ∧
           UploadEff.del t a.chatId msg ∈ (upload_file a).trace) := by
  have hbne : bots ≠ [] := selectBots_ne_nil _ _ _ hsel
  have hbid : bots.map (·.bot_id) ≠ [] := by
    intro h
    exact hbne (List.map_eq_nil_iff.mp h)
  have hmemdel : ∀ i ∈ a.completionOrder, ∀ tg msg,
      a.workerResult i = .ok (tg, msg) →
      ∃ t, List.lookup (assignedBot (bots.map (·.bot_id)) i)
          (tokenMapOf bots) = some t ∧
        UploadEff.del t a.chatId msg ∈
          uploadRollback a bots
            (uploadChunksOf a (bots.map (·.bot_id))) := by
    intro i hi tg msg hw
    have hcmem : workerChunk a (bots.map (·.bot_id)) i tg msg ∈
        uploadChunksOf a (bots.map (·.bot_id)) :=
      List.mem_filterMap.mpr ⟨i, hi, by rw [hw]⟩
    have hbmem : assignedBot (bots.map (·.bot_id)) i ∈
        bots.map (·.bot_id) := assignedBot_mem _ hbid i
    obtain ⟨t, ht⟩ := lookup_tokenMapOf bots _ hbmem
    exact ⟨t, ht, uploadRollback_mem a bots _ _ hcmem t ht⟩
  cases hfc : firstChunkError a with
  | some err =>
      refine ⟨?_, ⟨err, ?_, ?_, ?_⟩, ?_, ?_⟩
      · simp [upload_file, hsel, hfc]
      · simp [upload_file, hsel, hfc]
      · simp [firstUploadError, hfc]
      · simp only [upload_file, hsel, hfc]
        exact List.getLast?_concat _
      · simp only [upload_file, hsel, hfc]
        rw [List.countP_append, List.countP_append,
          countP_isFailedEvU_rollback]
        rfl
      · intro i hi tg msg hw
        have hi2 : i ∈ a.completionOrder := hperm.mem_iff.mpr hi
        obtain ⟨t, ht, hmem⟩ := hmemdel i hi2 tg msg hw
        refine ⟨t, ht, ?_⟩
        simp only [upload_file, hsel, hfc]
        exact List.mem_append.mpr (Or.inl
          (List.mem_append.mpr (Or.inr hmem)))
  | none =>
      have hnw : ∀ i ∈ a.completionOrder,
          (fun i => match a.workerResult i with
            | .error e => some e
            | .ok _ => none) i = none := by
        rw [← List.findSome?_eq_none_iff]
        simpa [firstChunkError] using hfc
      have hsaveerr : ∃ e, a.saveResult = .error e := by
        cases hfail with
        | inl h =>
            obtain ⟨i, hi, e, he⟩ := h
            have h2 := hnw i hi
            simp [he] at h2
        | inr h => exact h
      obtain ⟨e, hsv⟩ := hsaveerr
      refine ⟨?_, ⟨e, ?_, ?_, ?_⟩, ?_, ?_⟩
      · simp [upload_file, hsel, hfc, hsv]
      · simp [upload_file, hsel, hfc, hsv]
      · simp [firstUploadError, hfc, hsv]
      · simp only [upload_file, hsel, hfc, hsv]
        exact List.getLast?_concat _
      · simp only [upload_file, hsel, hfc, hsv]
        rw [List.countP_append, List.countP_append, List.countP_append,
          countP_isFailedEvU_rollback]
        rfl
      · intro i hi tg msg hw
        have hi2 : i ∈ a.completionOrder := hperm.mem_iff.mpr hi
        have hcmem : workerChunk a (bots.map (·.bot_id)) i tg msg ∈
            uploadChunksOf a (bots.map (·.bot_id)) :=
          List.mem_filterMap.mpr ⟨i, hi2, by rw [hw]⟩
        have hcs : workerChunk a (bots.map (·.bot_id)) i tg msg ∈
            (uploadMeta a bots).chunks := by
          simp only [uploadMeta]
          exact (List.perm_insertionSort _ _).symm.subset hcmem
        have hbmem := assignedBot_mem (bots.map (·.bot_id)) hbid i
        obtain ⟨t, ht⟩ := lookup_tokenMapOf bots _ hbmem
        refine ⟨t, ht, ?_⟩
        have hmem := uploadRollback_mem a bots _ _ hcs t ht
        simp only [upload_file, hsel, hfc, hsv]
        exact List.mem_append.mpr (Or.inl (List.mem_append.mpr
          (Or.inr hmem)))

/-- Witness for upload_rollback_on_failure at the exUploadFail call: no
metadata persists, the first observed error is returned, exactly one
Failed event is emitted, and the two successful chunks (0 on b1, 2 on
b3) are rolled back with their own tokens and message ids. -/
theorem upload_rollback_on_failure_witness :
    (upload_file exUploadFail).persisted = none ∧
    (upload_file exUploadFail).result =
      .error (.uploadFailed "Telegram API error (400 Bad Request): boom") ∧
    (upload_file exUploadFail).trace.countP isFailedEvU = 1 ∧
    UploadEff.del "T1" "c" 100 ∈ (upload_file exUploadFail).trace ∧
    UploadEff.del "T3" "c" 102 ∈ (upload_file exUploadFail).trace := by
  have h := upload_rollback_on_failure exUploadFail exSortedBots
    (by decide) (by decide)
    (Or.inl ⟨1, by decide,
      .uploadFailed "Telegram API error (400 Bad Request): boom", rfl⟩)
  refine ⟨h.1, ?_, h.2.2.1, ?_, ?_⟩
  · obtain ⟨e, he1, he2, _⟩ := h.2.1
    have he3 : some e = some (TgCloudError.uploadFailed
        "Telegram API error (400 Bad Request): boom") :=
      he2.symm.trans (by decide)
    rw [Option.some.inj he3] at he1
    exact he1
  · obtain ⟨t, ht, hmem⟩ := h.2.2.2 0 (by decide) "tg" 100 rfl
    have ht2 : some t = some "T1" := ht.symm.trans (by decide)
    rw [Option.some.inj ht2] at hmem
    exact hmem
  · obtain ⟨t, ht, hmem⟩ := h.2.2.2 2 (by decide) "tg" 102 (by decide)
    have ht2 : some t = some "T3" := ht.symm.trans (by decide)
    rw [Option.some.inj ht2] at hmem
    exact hmem

end TgCloud
